import Mathlib

/-!
Shallow embedding of the onepointsix multiplayer synchronization core.

The definitions below are translated from the repository sources:
  src/src/engine/entity.py        (Entity: registration, diffing, resolution)
  src/src/onepointsix/gamemode_server.py  (GamemodeServer: event bus, queues,
                                   connection handling, run loop)
Python dicts are embedded as insertion-ordered association lists
(List (String × _)) with single-entry-per-key update semantics, matching
dict assignment; raised exceptions become Except.error carrying the
exception name.
-/

/-- Serialized attribute values as produced by Entity.dict(): JSON-encodable
primitives (ints, strings, bools, a rectangle serialized as its four fields,
and null). -/
inductive Value where
  | vInt (n : Int)
  | vStr (s : String)
  | vBool (b : Bool)
  | vRect (x y w h : Int)
  | vNull
deriving DecidableEq, Repr

/-- A serialized snapshot of an entity: attribute name to value, as returned
by Entity.dict() / serialize(). -/
abbrev Snapshot := List (String × Value)

/-- Python dict read: d.get(k), None when the key is absent. -/
def dictGet : List (String × α) → String → Option α
  | [], _ => none
  | kv :: rest, k => if kv.1 == k then some kv.2 else dictGet rest k

/-- Python dict read with default (defaultdict access). -/
def dictGetD (m : List (String × α)) (k : String) (d : α) : α :=
  (dictGet m k).getD d

/-- Python dict assignment d[k] = v: replace the value in place when the key
exists (keeping insertion order), append otherwise. -/
def dictInsert : List (String × α) → String → α → List (String × α)
  | [], k, v => [(k, v)]
  | kv :: rest, k, v =>
    if kv.1 == k then (k, v) :: rest else kv :: dictInsert rest k v

/-- Python del d[k] restricted to its effect on the entries (the source only
deletes keys it knows to be present). -/
def dictDelete (m : List (String × α)) (k : String) : List (String × α) :=
  m.filter (fun kv => !(kv.1 == k))

theorem dictGet_dictInsert_self (m : List (String × α)) (k : String) (v : α) :
    dictGet (dictInsert m k v) k = some v := by
  induction m with
  | nil => simp [dictInsert, dictGet]
  | cons kv rest ih =>
    by_cases h : kv.1 = k
    · simp [dictInsert, h, dictGet]
    · simp [dictInsert, h, dictGet, ih]

theorem dictGet_dictInsert_ne (m : List (String × α)) (k k' : String) (v : α)
    (h : k' ≠ k) : dictGet (dictInsert m k v) k' = dictGet m k' := by
  induction m with
  | nil => simp [dictInsert, dictGet, Ne.symm h]
  | cons kv rest ih =>
    by_cases hk : kv.1 = k
    · subst hk
      simp [dictInsert, dictGet, Ne.symm h]
    · by_cases hk' : kv.1 = k'
      · simp [dictInsert, hk, dictGet, hk', h]
      · simp [dictInsert, hk, dictGet, hk', ih]

theorem mem_dictInsert (m : List (String × α)) (k : String) (v : α)
    (kv' : String × α) (h : kv' ∈ dictInsert m k v) : kv' ∈ m ∨ kv' = (k, v) := by
  induction m with
  | nil =>
    simp only [dictInsert, List.mem_singleton] at h
    right; exact h
  | cons kv rest ih =>
    by_cases hk : kv.1 = k
    · simp only [dictInsert, hk, beq_self_eq_true, if_true] at h
      rcases List.mem_cons.mp h with h1 | h1
      · right; exact h1
      · left; exact List.mem_cons_of_mem _ h1
    · simp only [dictInsert, beq_iff_eq, hk, if_false] at h
      rcases List.mem_cons.mp h with h1 | h1
      · left; rw [h1]; exact List.mem_cons_self _ _
      · rcases ih h1 with h2 | h2
        · left; exact List.mem_cons_of_mem _ h2
        · right; exact h2

theorem dictInsert_keys_of_contains (m : List (String × α)) (k : String) (v : α)
    (h : (m.map Prod.fst).contains k = true) :
    (dictInsert m k v).map Prod.fst = m.map Prod.fst := by
  induction m with
  | nil => simp at h
  | cons kv rest ih =>
    by_cases hk : kv.1 = k
    · simp [dictInsert, hk]
    · simp only [List.map_cons, List.contains_cons, beq_iff_eq] at h
      rcases Bool.or_eq_true_iff.mp h with h1 | h1
      · exact absurd (beq_iff_eq.mp h1).symm hk
      · simp [dictInsert, hk, ih h1]

theorem dictInsert_length_of_contains (m : List (String × α)) (k : String) (v : α)
    (h : (m.map Prod.fst).contains k = true) :
    (dictInsert m k v).length = m.length := by
  have h1 := congrArg List.length (dictInsert_keys_of_contains m k v h)
  simpa using h1

theorem dictInsert_keys_nodup (m : List (String × α)) (k : String) (v : α)
    (h : (m.map Prod.fst).Nodup) : ((dictInsert m k v).map Prod.fst).Nodup := by
  induction m with
  | nil => simp [dictInsert]
  | cons kv rest ih =>
    by_cases hk : kv.1 = k
    · subst hk
      simpa [dictInsert] using h
    · simp only [List.map_cons, List.nodup_cons] at h
      have hmem : kv.1 ∉ (dictInsert rest k v).map Prod.fst := by
        intro hmem
        rcases List.mem_map.mp hmem with ⟨kv', hkv', hfst⟩
        rcases mem_dictInsert rest k v kv' hkv' with h2 | h2
        · exact h.1 (hfst ▸ List.mem_map_of_mem Prod.fst h2)
        · rw [h2] at hfst
          exact hk hfst.symm
      simp only [dictInsert, beq_iff_eq, hk, if_false, List.map_cons, List.nodup_cons]
      exact ⟨hmem, ih h.2⟩

theorem dictGet_eq_some_of_mem (m : List (String × α)) (k : String) (v : α)
    (hnd : (m.map Prod.fst).Nodup) (hmem : (k, v) ∈ m) :
    dictGet m k = some v := by
  induction m with
  | nil => simp at hmem
  | cons kv rest ih =>
    simp only [List.map_cons, List.nodup_cons] at hnd
    rcases List.mem_cons.mp hmem with h | h
    · rw [← h]
      simp [dictGet]
    · have hk : kv.1 ≠ k := by
        intro he
        exact hnd.1 (he ▸ List.mem_map_of_mem Prod.fst h)
      simp only [dictGet, beq_iff_eq, hk, if_false]
      exact ih hnd.2 h

theorem mem_of_dictGet_eq_some (m : List (String × α)) (k : String) (v : α)
    (h : dictGet m k = some v) : (k, v) ∈ m := by
  induction m with
  | nil => simp [dictGet] at h
  | cons kv rest ih =>
    by_cases hk : kv.1 = k
    · simp only [dictGet, beq_iff_eq, hk, if_true, Option.some.injEq] at h
      have hkv : kv = (k, v) := by
        cases kv
        simp_all
      rw [hkv]
      exact List.mem_cons_self _ _
    · simp only [dictGet, beq_iff_eq, hk, if_false] at h
      exact List.mem_cons_of_mem _ (ih h)

theorem dictGet_eq_none_of_not_mem_keys (m : List (String × α)) (k : String)
    (h : k ∉ m.map Prod.fst) : dictGet m k = none := by
  induction m with
  | nil => simp [dictGet]
  | cons kv rest ih =>
    simp only [List.map_cons, List.mem_cons] at h
    push_neg at h
    simp only [dictGet, beq_iff_eq, Ne.symm h.1, if_false]
    exact ih h.2

/-- A replication wire update as built by GamemodeServer.network_update:
update_type is one of the strings "create" / "update" / "delete"
(inbound traffic is not validated, so the type stays a plain string). -/
structure NetUpdate where
  update_type : String
  entity_id : String
  entity_type : Option String
  data : Option Snapshot
deriving DecidableEq, Repr

def mkNetUpdate (ut eid : String) (ets : Option String) (data : Option Snapshot) :
    NetUpdate :=
  ⟨ut, eid, ets, data⟩

/-- Modelled from the spec: dict_diff from engine/helpers.py, which is not under
src/ (only its import and call site in engine/entity.py are). Spec wording:
"diff(previous, current) → mapping containing only keys whose value differs
between the two snapshots (value inequality, not identity)", with the current
values. -/
def dict_diff (previous current : Snapshot) : Snapshot :=
  current.filter (fun kv => !(dictGet previous kv.1 == some kv.2))

/-- One direction of Python dict equality: every entry of a is present in b. -/
def dictLe (a b : Snapshot) : Bool :=
  a.all (fun kv => dictGet b kv.1 == some kv.2)

/-- Python dict equality (same keys, equal values), as used by the
current_tick_dict != self.last_tick_dict comparison. -/
def dictEqB (a b : Snapshot) : Bool :=
  dictLe a b && dictLe b a

/-- Entity.detect_updates (src/src/engine/entity.py, lines 41-67), reduced to
the data it inspects: the previous-tick snapshot self.last_tick_dict, the
current snapshot current_tick_dict = self.dict(), the entity id and its
type-map string. Returns the network_update call it makes (if any) and the
new value of self.last_tick_dict. -/
def detect_updates (last current : Snapshot) (eid ets : String) :
    Option NetUpdate × Snapshot :=
  if last = [] then
    (some (mkNetUpdate "create" eid (some ets) (some current)), current)
  else if dictEqB current last then
    (none, current)
  else
    (some (mkNetUpdate "update" eid none (some (dict_diff last current))), current)

theorem dictGet_dict_diff (previous current : Snapshot)
    (hnd : (current.map Prod.fst).Nodup) (k : String) :
    dictGet (dict_diff previous current) k =
      match dictGet current k with
      | none => none
      | some v => if dictGet previous k = some v then none else some v := by
  induction current with
  | nil => simp [dict_diff, dictGet]
  | cons kv rest ih =>
    simp only [List.map_cons, List.nodup_cons] at hnd
    by_cases hk : kv.1 = k
    · subst hk
      by_cases hp : dictGet previous kv.1 = some kv.2
      · have hdrop : (!(dictGet previous kv.1 == some kv.2)) = false := by
          simp [hp]
        simp only [dict_diff, List.filter_cons, hdrop, Bool.false_eq_true, if_false]
        have hnotin : dictGet (dict_diff previous rest) kv.1 = none := by
          apply dictGet_eq_none_of_not_mem_keys
          intro hmem
          rcases List.mem_map.mp hmem with ⟨kv', hkv', hfst⟩
          have hsub : kv' ∈ rest := List.mem_of_mem_filter hkv'
          exact hnd.1 (hfst ▸ List.mem_map_of_mem Prod.fst hsub)
        rw [dict_diff] at hnotin
        rw [hnotin]
        simp [dictGet, hp]
      · have hkeep : (!(dictGet previous kv.1 == some kv.2)) = true := by
          simp [hp]
        simp only [dict_diff, List.filter_cons, hkeep, if_true]
        simp [dictGet, hp]
    · have hb : (kv.1 == k) = false := by simpa using hk
      have htail := ih hnd.2
      simp only [dict_diff, List.filter_cons]
      by_cases hkeep : (!(dictGet previous kv.1 == some kv.2)) = true
      · rw [if_pos hkeep]
        simp only [dictGet, hb, Bool.false_eq_true, if_false]
        rw [dict_diff] at htail
        exact htail
      · rw [if_neg hkeep]
        simp only [dictGet, hb, Bool.false_eq_true, if_false]
        rw [dict_diff] at htail
        exact htail

theorem dict_diff_self (x : Snapshot) (hnd : (x.map Prod.fst).Nodup) :
    dict_diff x x = [] := by
  rw [dict_diff, List.filter_eq_nil_iff]
  intro kv hmem
  have h := dictGet_eq_some_of_mem x kv.1 kv.2 hnd hmem
  simp [h]

/-- C2: at every TickComplete, Entity.detect_updates enqueues a full-data
create when there was no previous snapshot, enqueues nothing when the current
serialization equals the previous one, and otherwise enqueues an update whose
data holds exactly the keys whose values changed, with their current values. -/
theorem detect_updates_correct (last current : Snapshot) (eid ets : String)
    (hnd : (current.map Prod.fst).Nodup) :
    (last = [] → (detect_updates last current eid ets).1 =
        some (mkNetUpdate "create" eid (some ets) (some current))) ∧
    (last ≠ [] → dictEqB current last = true →
        (detect_updates last current eid ets).1 = none) ∧
    (last ≠ [] → dictEqB current last = false →
        (detect_updates last current eid ets).1 =
          some (mkNetUpdate "update" eid none (some (dict_diff last current))) ∧
        ∀ k, dictGet (dict_diff last current) k =
          if dictGet current k = dictGet last k then none
          else dictGet current k) ∧
    dict_diff current current = [] := by
  refine ⟨?_, ?_, ?_, dict_diff_self current hnd⟩
  · intro h
    simp [detect_updates, h]
  · intro h he
    simp [detect_updates, h, he]
  · intro h he
    constructor
    · simp [detect_updates, h, he]
    · intro k
      rw [dictGet_dict_diff last current hnd k]
      cases hc : dictGet current k with
      | none => simp
      | some v =>
        by_cases hp : dictGet last k = some v
        · simp [hp]
        · simp [hp, Ne.symm hp]

/-- Witness for detect_updates_correct at concrete snapshots. -/
theorem detect_updates_correct_witness :
    ((([("x", Value.vInt 1), ("y", Value.vInt 3)] : Snapshot).map Prod.fst).Nodup) ∧
    (detect_updates [("x", Value.vInt 1), ("y", Value.vInt 2)]
        [("x", Value.vInt 1), ("y", Value.vInt 3)] "e1" "floor").1 =
      some (mkNetUpdate "update" "e1" none (some [("y", Value.vInt 3)])) := by
  refine ⟨by decide, ?_⟩
  have h := (detect_updates_correct [("x", Value.vInt 1), ("y", Value.vInt 2)]
      [("x", Value.vInt 1), ("y", Value.vInt 3)] "e1" "floor" (by decide)).2.2.1
      (by decide) (by decide)
  rw [h.1]
  decide

/-- An entity attribute as seen by Entity.resolve: either an Unresolved
placeholder wrapping another entity's id (engine/unresolved.py), an already
resolved reference to the live entity object with that id (the registry owns
the objects, so the reference is recorded by id), or plain data. -/
inductive Attr where
  | unresolved (uuid : String)
  | entityRef (uuid : String)
  | plain (v : Value)
deriving DecidableEq, Repr

/-- The state of one live entity: its id, the peer authorized to mutate it
(self.updater), its runtime type identity (Python type(self), used by
lookup_entity_type_string), its attribute dictionary self.__dict__ restricted
to the replicated attributes, and the output of self.serialize()/self.dict(). -/
structure EntityState where
  id : String
  updater : String
  etype : String
  attrs : List (String × Attr)
  serial : Snapshot
deriving DecidableEq, Repr

/-- The self-registration assignment of Entity.__init__
(src/src/engine/entity.py line 32 and src/engine/entity.py line 23):
self.game.entities[self.id] = self, a plain dict assignment with no
duplicate check. -/
def register (reg : List (String × EntityState)) (e : EntityState) :
    List (String × EntityState) :=
  dictInsert reg e.id e

/-- C5 counterexample: constructing a second entity with an id already present
in the registry does not fail and does not leave the registry unchanged: the
assignment silently overwrites the first entity. -/
theorem register_duplicate_counterexample :
    register (register [] (⟨"x", "server", "Floor", [], []⟩ : EntityState))
        (⟨"x", "c1", "Floor", [], []⟩ : EntityState) =
      [("x", (⟨"x", "c1", "Floor", [], []⟩ : EntityState))] ∧
    dictGet (register (register [] (⟨"x", "server", "Floor", [], []⟩ : EntityState))
        (⟨"x", "c1", "Floor", [], []⟩ : EntityState)) "x" ≠
      some (⟨"x", "server", "Floor", [], []⟩ : EntityState) := by
  constructor
  · rfl
  · decide

/-- C5 amended: registering an entity whose id is already present silently
replaces the stored entity (no DuplicateIdError exists in the code); the
registry keeps its key set, its size and its at-most-one-entity-per-id shape. -/
theorem register_overwrites (reg : List (String × EntityState)) (e : EntityState)
    (hmem : (reg.map Prod.fst).contains e.id = true) :
    dictGet (register reg e) e.id = some e ∧
    (register reg e).length = reg.length ∧
    (register reg e).map Prod.fst = reg.map Prod.fst ∧
    ((reg.map Prod.fst).Nodup → ((register reg e).map Prod.fst).Nodup) := by
  refine ⟨dictGet_dictInsert_self reg e.id e,
    dictInsert_length_of_contains reg e.id e hmem,
    dictInsert_keys_of_contains reg e.id e hmem,
    fun hnd => dictInsert_keys_nodup reg e.id e hnd⟩

/-- Witness for register_overwrites at a concrete registry. -/
theorem register_overwrites_witness :
    (([("x", (⟨"x", "server", "Floor", [], []⟩ : EntityState))].map
        Prod.fst).contains "x" = true) ∧
    dictGet (register [("x", (⟨"x", "server", "Floor", [], []⟩ : EntityState))]
        (⟨"x", "c1", "Floor", [], []⟩ : EntityState)) "x" =
      some (⟨"x", "c1", "Floor", [], []⟩ : EntityState) := by
  refine ⟨by decide, ?_⟩
  exact (register_overwrites [("x", (⟨"x", "server", "Floor", [], []⟩ : EntityState))]
    (⟨"x", "c1", "Floor", [], []⟩ : EntityState) (by decide)).1

/-- Entity.resolve (src/src/engine/entity.py, lines 69-81) on one attribute
dictionary: every attribute holding an Unresolved placeholder is replaced by
the registry's live object for that id via the lookup
self.game.entities[attribute.uuid]; a plain dict indexing that raises KeyError
when the id is absent. -/
def resolveAttrs (reg : List (String × EntityState)) :
    List (String × Attr) → Except String (List (String × Attr))
  | [] => .ok []
  | (n, Attr.unresolved uid) :: rest =>
    match dictGet reg uid with
    | some _ =>
      match resolveAttrs reg rest with
      | .ok r => .ok ((n, Attr.entityRef uid) :: r)
      | .error msg => .error msg
    | none => .error "KeyError"
  | (n, a) :: rest =>
    match resolveAttrs reg rest with
    | .ok r => .ok ((n, a) :: r)
    | .error msg => .error msg

/-- The post-batch resolution pass of GamemodeServer.load_updates
(src/src/onepointsix/gamemode_server.py, lines 200-202): for entity in
self.entities.values(): entity.resolve(). Attribute mutation does not change
registry membership, so each entity resolves against the same registry. -/
def resolve_all (reg : List (String × EntityState)) :
    Except String (List (String × EntityState)) :=
  resolveEntities reg reg
where
  resolveEntities (reg : List (String × EntityState)) :
      List (String × EntityState) → Except String (List (String × EntityState))
    | [] => .ok []
    | (eid, e) :: rest =>
      match resolveAttrs reg e.attrs with
      | .error msg => .error msg
      | .ok ra =>
        match resolveEntities reg rest with
        | .error msg => .error msg
        | .ok es => .ok ((eid, { e with attrs := ra }) :: es)

/-- The replacement resolve performs on a single attribute when every lookup
succeeds. -/
def resolveOne : String × Attr → String × Attr
  | (n, Attr.unresolved uid) => (n, Attr.entityRef uid)
  | (n, a) => (n, a)

/-- Whether one attribute either is not an Unresolved placeholder or points at
an id present in the registry. -/
def resolvableAttr (reg : List (String × EntityState)) (na : String × Attr) : Bool :=
  match na.2 with
  | Attr.unresolved uid => (dictGet reg uid).isSome
  | _ => true

/-- Whether every Unresolved attribute of every live entity points at an id
present in the registry. -/
def allResolvable (reg : List (String × EntityState)) : Bool :=
  reg.all (fun kv => kv.2.attrs.all (resolvableAttr reg))

/-- C3 counterexample: an entity holding an UnresolvedReference whose target id
is absent from the registry makes the resolution pass raise KeyError instead of
leaving the attribute unchanged. -/
theorem resolve_absent_target_counterexample :
    resolve_all
        [("a", (⟨"a", "server", "Player",
            [("weapon", Attr.unresolved "b")], []⟩ : EntityState))] =
      .error "KeyError" := by
  rfl

theorem resolveAttrs_ok_of_resolvable (reg : List (String × EntityState))
    (attrs : List (String × Attr))
    (h : attrs.all (resolvableAttr reg) = true) :
    resolveAttrs reg attrs = .ok (attrs.map resolveOne) := by
  induction attrs with
  | nil => rfl
  | cons na rest ih =>
    simp only [List.all_cons, Bool.and_eq_true] at h
    have htail := ih h.2
    obtain ⟨n, a⟩ := na
    cases a with
    | unresolved uid =>
      have hsome := h.1
      simp only [resolvableAttr] at hsome
      cases hval : dictGet reg uid with
      | none => rw [hval] at hsome; simp at hsome
      | some e =>
        simp only [resolveAttrs, hval, htail]
        rfl
    | entityRef uid =>
      simp only [resolveAttrs, htail]
      rfl
    | plain v =>
      simp only [resolveAttrs, htail]
      rfl

theorem resolveAttrs_error_of_unresolvable (reg : List (String × EntityState))
    (attrs : List (String × Attr))
    (h : attrs.all (resolvableAttr reg) = false) :
    ∃ msg, resolveAttrs reg attrs = .error msg := by
  induction attrs with
  | nil => simp at h
  | cons na rest ih =>
    simp only [List.all_cons, Bool.and_eq_false_iff] at h
    obtain ⟨n, a⟩ := na
    cases a with
    | unresolved uid =>
      cases hval : dictGet reg uid with
      | none => exact ⟨"KeyError", by simp [resolveAttrs, hval]⟩
      | some e =>
        have htail : rest.all (resolvableAttr reg) = false := by
          rcases h with h1 | h1
          · simp only [resolvableAttr, hval] at h1; simp at h1
          · exact h1
        obtain ⟨msg, hmsg⟩ := ih htail
        exact ⟨msg, by simp [resolveAttrs, hval, hmsg]⟩
    | entityRef uid =>
      have htail : rest.all (resolvableAttr reg) = false := by
        rcases h with h1 | h1
        · simp [resolvableAttr] at h1
        · exact h1
      obtain ⟨msg, hmsg⟩ := ih htail
      exact ⟨msg, by simp [resolveAttrs, hmsg]⟩
    | plain v =>
      have htail : rest.all (resolvableAttr reg) = false := by
        rcases h with h1 | h1
        · simp [resolvableAttr] at h1
        · exact h1
      obtain ⟨msg, hmsg⟩ := ih htail
      exact ⟨msg, by simp [resolveAttrs, hmsg]⟩

/-- C3 amended: the resolution pass replaces every UnresolvedReference whose
target id is in the registry with the live object for that id, but when any
live entity holds an UnresolvedReference to an absent id the pass raises
KeyError (it does not fail silently). -/
theorem resolve_all_correct (reg : List (String × EntityState)) :
    (allResolvable reg = true →
      resolve_all reg =
        .ok (reg.map (fun kv => (kv.1, { kv.2 with attrs := kv.2.attrs.map resolveOne })))) ∧
    (allResolvable reg = false → ∃ msg, resolve_all reg = .error msg) := by
  constructor
  · intro h
    rw [resolve_all]
    have hgen : ∀ sub : List (String × EntityState),
        sub.all (fun kv => kv.2.attrs.all (resolvableAttr reg)) = true →
        resolve_all.resolveEntities reg sub =
          .ok (sub.map (fun kv => (kv.1, { kv.2 with attrs := kv.2.attrs.map resolveOne }))) := by
      intro sub hsub
      induction sub with
      | nil => rfl
      | cons kv rest ih =>
        simp only [List.all_cons, Bool.and_eq_true] at hsub
        have h1 := resolveAttrs_ok_of_resolvable reg kv.2.attrs hsub.1
        simp only [resolve_all.resolveEntities, h1, ih hsub.2, List.map_cons]
    exact hgen reg (by rw [allResolvable] at h; exact h)
  · intro h
    rw [resolve_all]
    rw [allResolvable] at h
    have hgen : ∀ sub : List (String × EntityState),
        sub.all (fun kv => kv.2.attrs.all (resolvableAttr reg)) = false →
        ∃ msg, resolve_all.resolveEntities reg sub = .error msg := by
      intro sub hsub
      induction sub with
      | nil => simp at hsub
      | cons kv rest ih =>
        simp only [List.all_cons, Bool.and_eq_false_iff] at hsub
        by_cases hhead : kv.2.attrs.all (resolvableAttr reg) = true
        · have htail : rest.all (fun kv => kv.2.attrs.all (resolvableAttr reg)) = false := by
            rcases hsub with h1 | h1
            · rw [hhead] at h1; simp at h1
            · exact h1
          obtain ⟨msg, hmsg⟩ := ih htail
          have h1 := resolveAttrs_ok_of_resolvable reg kv.2.attrs hhead
          exact ⟨msg, by simp [resolve_all.resolveEntities, h1, hmsg]⟩
        · have hhead' : kv.2.attrs.all (resolvableAttr reg) = false :=
            Bool.eq_false_iff.mpr hhead
          obtain ⟨msg, hmsg⟩ := resolveAttrs_error_of_unresolvable reg kv.2.attrs hhead'
          exact ⟨msg, by simp [resolve_all.resolveEntities, hmsg]⟩
    exact hgen reg h

/-- Witness for resolve_all_correct: a weapon resolving to its present owner. -/
theorem resolve_all_correct_witness :
    allResolvable
        [("a", (⟨"a", "server", "Shotgun", [("owner", Attr.unresolved "b")], []⟩ : EntityState)),
         ("b", (⟨"b", "server", "Player", [], []⟩ : EntityState))] = true ∧
    resolve_all
        [("a", (⟨"a", "server", "Shotgun", [("owner", Attr.unresolved "b")], []⟩ : EntityState)),
         ("b", (⟨"b", "server", "Player", [], []⟩ : EntityState))] =
      .ok
        [("a", (⟨"a", "server", "Shotgun", [("owner", Attr.entityRef "b")], []⟩ : EntityState)),
         ("b", (⟨"b", "server", "Player", [], []⟩ : EntityState))] := by
  refine ⟨by decide, ?_⟩
  have h := (resolve_all_correct
      [("a", (⟨"a", "server", "Shotgun", [("owner", Attr.unresolved "b")], []⟩ : EntityState)),
       ("b", (⟨"b", "server", "Player", [], []⟩ : EntityState))]).1 (by decide)
  rw [h]
  rfl

/-- The simulation-phase and network events dispatched by GamemodeServer.run. -/
inductive LoopEvent where
  | tickStart
  | tick
  | tickComplete
  | networkTick
deriving DecidableEq, Repr

/-- The local timing state of GamemodeServer.run: last_game_tick and
last_network_tick, both initialized to 0. Times are rationals standing for
the wall-clock values returned by time.time(). -/
structure RunState where
  last_game_tick : ℚ
  last_network_tick : ℚ
deriving DecidableEq, Repr

/-- One iteration of the while-loop of GamemodeServer.run
(src/src/onepointsix/gamemode_server.py, lines 361-374). t1 is the
time.time() read by the simulation-gate comparison, t2 the one read by the
network-gate comparison, t3 the one assigned to last_network_tick. The source
contains no assignment to last_game_tick, so the returned state keeps it
unchanged. -/
def runIter (max_tick_rate network_tick_rate : ℚ) (s : RunState)
    (t1 t2 t3 : ℚ) : RunState × List LoopEvent :=
  let simEvents : List LoopEvent :=
    if t1 - s.last_game_tick ≥ 1 / max_tick_rate then
      [LoopEvent.tickStart, LoopEvent.tick, LoopEvent.tickComplete]
    else []
  if t2 - s.last_network_tick ≥ 1 / network_tick_rate then
    ({ s with last_network_tick := t3 }, simEvents ++ [LoopEvent.networkTick])
  else (s, simEvents)

/-- C1 (code bug): with max_tick_rate = 1 the simulation events fire on an
iteration at t = 2 and again on an iteration at t = 2.1, only 0.1 s after the
gate last fired, because last_game_tick is never updated; the network gate,
which does update its own timestamp, correctly stays silent the second time. -/
theorem run_loop_game_gate_refires_early :
    (runIter 1 1 ⟨0, 0⟩ 2 2 2).2 =
      [LoopEvent.tickStart, LoopEvent.tick, LoopEvent.tickComplete,
       LoopEvent.networkTick] ∧
    (runIter 1 1 ⟨0, 0⟩ 2 2 2).1 = ⟨0, 2⟩ ∧
    (runIter 1 1 ⟨0, 2⟩ (21/10) (21/10) (21/10)).2 =
      [LoopEvent.tickStart, LoopEvent.tick, LoopEvent.tickComplete] ∧
    ((21/10 : ℚ) - 2 < 1 / 1) := by
  refine ⟨?_, ?_, ?_, by norm_num⟩
  · rw [runIter]
    norm_num
  · rw [runIter]
    norm_num
  · rw [runIter]
    norm_num

/-- The GamemodeServer state touched by the networking paths
(src/src/onepointsix/gamemode_server.py, GamemodeServer.__init__):
client_sockets is kept as its ordered key set (the socket objects themselves
carry no replicated state), entities is the registry, entity_type_map maps
type strings to runtime type identities, updates_to_load is the inbound
batch list, update_queue the per-destination outbound queues (a defaultdict),
uuid the server identity "server". -/
structure ServerState where
  client_sockets : List String
  entities : List (String × EntityState)
  entity_type_map : List (String × String)
  updates_to_load : List NetUpdate
  update_queue : List (String × List NetUpdate)
  uuid : String
deriving DecidableEq, Repr

/-- defaultdict list append: self.update_queue[k] += us. -/
def queueAppend (q : List (String × List NetUpdate)) (k : String)
    (us : List NetUpdate) : List (String × List NetUpdate) :=
  dictInsert q k (dictGetD q k [] ++ us)

/-- The destination loop of network_update: for destination in destinations:
self.update_queue[destination].append(update). -/
def enqueueAll : List String → NetUpdate → List (String × List NetUpdate) →
    List (String × List NetUpdate)
  | [], _, q => q
  | d :: ds, u, q => enqueueAll ds u (queueAppend q d [u])

theorem dictGetD_queueAppend_self (q : List (String × List NetUpdate))
    (k : String) (us : List NetUpdate) :
    dictGetD (queueAppend q k us) k [] = dictGetD q k [] ++ us := by
  rw [queueAppend, dictGetD, dictGet_dictInsert_self]
  rfl

theorem dictGetD_queueAppend_ne (q : List (String × List NetUpdate))
    (k c : String) (us : List NetUpdate) (h : c ≠ k) :
    dictGetD (queueAppend q k us) c [] = dictGetD q c [] := by
  rw [queueAppend, dictGetD, dictGet_dictInsert_ne _ _ _ _ h]
  rfl

theorem dictGetD_enqueueAll (dests : List String) (u : NetUpdate)
    (q : List (String × List NetUpdate)) (c : String) (hnd : dests.Nodup) :
    dictGetD (enqueueAll dests u q) c [] =
      dictGetD q c [] ++ (if c ∈ dests then [u] else []) := by
  induction dests generalizing q with
  | nil => simp [enqueueAll]
  | cons d ds ih =>
    simp only [List.nodup_cons] at hnd
    rw [enqueueAll, ih _ hnd.2]
    by_cases hc : c = d
    · subst hc
      have hnot : c ∉ ds := hnd.1
      simp [hnot, dictGetD_queueAppend_self]
    · simp only [List.mem_cons]
      rw [dictGetD_queueAppend_ne _ _ _ _ hc]
      have : (c = d ∨ c ∈ ds) ↔ c ∈ ds := by
        constructor
        · rintro (h1 | h1)
          · exact absurd h1 hc
          · exact h1
        · exact Or.inr
      rw [if_congr this rfl rfl]

/-- GamemodeServer.network_update (src/src/onepointsix/gamemode_server.py,
lines 113-137): validate the update type, require and validate
entity_type_string for creates, default destinations to all connected
clients, then append the update dict to each destination's queue. -/
def network_update (update_type entity_id : String)
    (destinations : Option (List String)) (data : Option Snapshot)
    (entity_type_string : Option String) (s : ServerState) :
    Except String ServerState :=
  if !(update_type == "create" || update_type == "update" ||
      update_type == "delete") then
    .error "InvalidUpdateType"
  else if update_type == "create" && entity_type_string == none then
    .error "MalformedUpdate"
  else if update_type == "create" && !(match entity_type_string with
      | some t => (s.entity_type_map.map Prod.fst).contains t
      | none => false) then
    .error "MalformedUpdate"
  else
    let dests := destinations.getD s.client_sockets
    let q := enqueueAll dests
      (mkNetUpdate update_type entity_id entity_type_string data) s.update_queue
    .ok { s with update_queue := q }

/-- Whether a network_update call passes the three guards at its top. -/
def updateChecksPass (update_type : String) (entity_type_string : Option String)
    (type_map : List (String × String)) : Bool :=
  (update_type == "create" || update_type == "update" ||
    update_type == "delete") &&
  (!(update_type == "create") ||
    (match entity_type_string with
     | some t => (type_map.map Prod.fst).contains t
     | none => false))

theorem network_update_ok (update_type entity_id : String)
    (destinations : Option (List String)) (data : Option Snapshot)
    (entity_type_string : Option String) (s : ServerState)
    (hok : updateChecksPass update_type entity_type_string s.entity_type_map = true) :
    network_update update_type entity_id destinations data entity_type_string s =
      .ok { s with update_queue := (enqueueAll (destinations.getD s.client_sockets)
        (mkNetUpdate update_type entity_id entity_type_string data)
        s.update_queue) } := by
  rw [updateChecksPass.eq_def, Bool.and_eq_true] at hok
  obtain ⟨h1, h2⟩ := hok
  by_cases hc : update_type = "create"
  · subst hc
    simp only [beq_self_eq_true, Bool.not_true, Bool.false_or] at h2
    cases hets : entity_type_string with
    | none => rw [hets] at h2; simp at h2
    | some t =>
      rw [hets] at h2
      have h2b : ((s.entity_type_map.map Prod.fst).contains t) = true := h2
      simp [network_update, h1, hets, h2b]
      have hmem : t ∈ s.entity_type_map.map Prod.fst := by simpa using h2b
      rcases List.mem_map.mp hmem with ⟨kv, hkv, hfst⟩
      exact ⟨kv.2, by rw [← hfst]; exact hkv⟩
  · have hcb : (update_type == "create") = false := by simpa using hc
    rw [hcb, Bool.false_or] at h1
    simp [network_update, h1, hcb]

/-- C10: a network_update call with destinations = None appends the update to
the queue of exactly the clients connected at that moment; with no clients
connected it leaves the state unchanged, silently dropping the update. -/
theorem network_update_default_destinations (s : ServerState)
    (update_type entity_id : String) (data : Option Snapshot)
    (entity_type_string : Option String)
    (hok : updateChecksPass update_type entity_type_string s.entity_type_map = true)
    (hnd : s.client_sockets.Nodup) :
    ∃ s2, network_update update_type entity_id none data entity_type_string s =
        .ok s2 ∧
      (∀ c, c ∈ s.client_sockets →
        dictGetD s2.update_queue c [] =
          dictGetD s.update_queue c [] ++
            [mkNetUpdate update_type entity_id entity_type_string data]) ∧
      (∀ c, c ∉ s.client_sockets →
        dictGetD s2.update_queue c [] = dictGetD s.update_queue c []) ∧
      (s.client_sockets = [] → s2 = s) ∧
      s2.client_sockets = s.client_sockets ∧
      s2.entities = s.entities ∧
      s2.updates_to_load = s.updates_to_load := by
  refine ⟨_, network_update_ok update_type entity_id none data entity_type_string s hok,
    ?_, ?_, ?_, rfl, rfl, rfl⟩
  · intro c hc
    simp only [Option.getD_none]
    rw [dictGetD_enqueueAll _ _ _ _ hnd]
    simp [hc]
  · intro c hc
    simp only [Option.getD_none]
    rw [dictGetD_enqueueAll _ _ _ _ hnd]
    simp [hc]
  · intro hempty
    simp only [Option.getD_none]
    cases s
    simp_all [enqueueAll]

/-- Witness for network_update_default_destinations with two connected
clients and an empty queue. -/
theorem network_update_default_destinations_witness :
    ∃ s2, network_update "update" "e1" none (some [("y", Value.vInt 3)]) none
        (⟨["c1", "c2"], [], [], [], [], "server"⟩ : ServerState) = .ok s2 ∧
      dictGetD s2.update_queue "c1" [] =
        [mkNetUpdate "update" "e1" none (some [("y", Value.vInt 3)])] := by
  obtain ⟨s2, hok, hin, _hout, _hemp, _⟩ :=
    network_update_default_destinations
      (⟨["c1", "c2"], [], [], [], [], "server"⟩ : ServerState)
      "update" "e1" (some [("y", Value.vInt 3)]) none (by decide) (by decide)
  refine ⟨s2, hok, ?_⟩
  have h := hin "c1" (by decide)
  simpa using h

/-- A subscriber as seen by GamemodeServer.trigger: the bound method is
identified by handler, baseIsGamemodeServer records whether
function.__self__.__class__.__base__ == GamemodeServer (the owning object is
the host controller subclass itself), and updater is the owning entity's
self.updater (only consulted when baseIsGamemodeServer is false; the
GamemodeServer object has no updater attribute). -/
structure Subscriber where
  baseIsGamemodeServer : Bool
  updater : String
  handler : Nat
deriving DecidableEq, Repr

/-- GamemodeServer.trigger (src/src/onepointsix/gamemode_server.py, lines
98-111): walk the subscription list in order; host-level listeners always
run, any other listener runs only when its entity's updater equals the
server's own uuid. Returns the invoked subscribers in invocation order. -/
def triggerInvoked (uuid : String) : List Subscriber → List Subscriber
  | [] => []
  | f :: rest =>
    if f.baseIsGamemodeServer then
      f :: triggerInvoked uuid rest
    else if f.updater != uuid then
      triggerInvoked uuid rest
    else
      f :: triggerInvoked uuid rest

/-- C9: trigger invokes exactly the subscribers whose owner is host-level or
whose entity's updater equals the server identity, once per subscription, in
subscription order; a subscriber bound to an entity of a different updater is
never invoked. -/
theorem trigger_filters_by_updater (uuid : String) (subs : List Subscriber) :
    triggerInvoked uuid subs =
      subs.filter (fun f => f.baseIsGamemodeServer || f.updater == uuid) ∧
    List.Sublist (triggerInvoked uuid subs) subs ∧
    ∀ f : Subscriber,
      (triggerInvoked uuid subs).count f =
        if f.baseIsGamemodeServer = true ∨ f.updater = uuid then subs.count f
        else 0 := by
  have hfil : triggerInvoked uuid subs =
      subs.filter (fun f => f.baseIsGamemodeServer || f.updater == uuid) := by
    induction subs with
    | nil => rfl
    | cons f rest ih =>
      by_cases hh : f.baseIsGamemodeServer = true
      · simp [triggerInvoked, hh, List.filter_cons, ih]
      · by_cases hu : f.updater = uuid
        · simp [triggerInvoked, hh, hu, List.filter_cons, ih]
        · simp [triggerInvoked, hh, hu, List.filter_cons, ih]
  refine ⟨hfil, by rw [hfil]; exact List.filter_sublist _, ?_⟩
  intro f
  rw [hfil]
  by_cases hp : (f.baseIsGamemodeServer || f.updater == uuid) = true
  · have hprop : f.baseIsGamemodeServer = true ∨ f.updater = uuid := by
      rcases Bool.or_eq_true_iff.mp hp with h | h
      · left; exact h
      · right; exact beq_iff_eq.mp h
    rw [if_pos hprop]
    exact List.count_filter hp
  · have hprop : ¬(f.baseIsGamemodeServer = true ∨ f.updater = uuid) := by
      intro hor
      apply hp
      rcases hor with h | h
      · exact Bool.or_eq_true_iff.mpr (Or.inl h)
      · exact Bool.or_eq_true_iff.mpr (Or.inr (beq_iff_eq.mpr h))
    rw [if_neg hprop]
    rw [List.count_eq_zero]
    intro hmem
    exact hp (List.mem_filter.mp hmem).2

/-- none when the Option Value is not a string. -/
def valStr : Option Value → Option String
  | some (Value.vStr s) => some s
  | _ => none

/-- d[k] = v for every entry of the delta, over a snapshot. -/
def applyDataWrites : Snapshot → Snapshot → Snapshot
  | m, [] => m
  | m, kv :: rest => applyDataWrites (dictInsert m kv.1 kv.2) rest

/-- d[k] = v for every entry of the delta, over an attribute dictionary. -/
def applyAttrWrites : List (String × Attr) → Snapshot → List (String × Attr)
  | a, [] => a
  | a, kv :: rest => applyAttrWrites (dictInsert a kv.1 (Attr.plain kv.2)) rest

/-- Modelled from the spec: the collaborator hooks Entity.deserialize and the
entity constructor invoked by the create branch of load_updates (the concrete
hooks live in onepointsix/entity.py and per-type gamemode code, not under
src/): a create "constructs and registers" an entity with the given id from
the wire data, and serialize of the result returns that data. The
registration itself is the Entity.__init__ self-registration assignment. -/
def mkEntity (etype eid : String) (data : Snapshot) : EntityState :=
  { id := eid
    updater := (valStr (dictGet data "updater")).getD ""
    etype := etype
    attrs := data.map (fun kv => (kv.1, Attr.plain kv.2))
    serial := data }

/-- Entity.update (src/src/engine/entity.py, lines 105-119, extended per type
by collaborator entities): write each delta key over the entity's attributes;
an "updater" key reassigns self.updater. -/
def entityApplyUpdate (e : EntityState) (data : Snapshot) : EntityState :=
  { e with
    updater := (valStr (dictGet data "updater")).getD e.updater
    attrs := applyAttrWrites e.attrs data
    serial := applyDataWrites e.serial data }

/-- Modelled from the spec: Entity.kill (onepointsix/entity.py, not under
src/): "Destroyed by explicit removal from the registry, which must also emit
a 'delete' wire message to all other peers tracking it." -/
def killEntity (eid : String) (s : ServerState) : ServerState :=
  { s with
    entities := dictDelete s.entities eid
    update_queue :=
      enqueueAll s.client_sockets (mkNetUpdate "delete" eid none none)
        s.update_queue }

/-- One iteration of the match in GamemodeServer.load_updates
(src/src/onepointsix/gamemode_server.py, lines 150-194): a create indexes
entity_type_map (KeyError when the type string is absent or None) and
constructs+registers; an update for an unknown entity id is skipped, an
update for a live one calls Entity.update; a delete kills the entity,
swallowing the KeyError of an absent id; any other update_type string falls
through the match silently. -/
def applyUpdate (s : ServerState) (u : NetUpdate) : Except String ServerState :=
  if u.update_type == "create" then
    match u.entity_type with
    | none => .error "KeyError"
    | some t =>
      match dictGet s.entity_type_map t with
      | none => .error "KeyError"
      | some ety =>
        match u.data with
        | none => .error "TypeError"
        | some d =>
          .ok { s with
            entities := dictInsert s.entities u.entity_id (mkEntity ety u.entity_id d) }
  else if u.update_type == "update" then
    match dictGet s.entities u.entity_id with
    | none => .ok s
    | some e =>
      match u.data with
      | none => .error "TypeError"
      | some d =>
        .ok { s with
          entities := dictInsert s.entities u.entity_id (entityApplyUpdate e d) }
  else if u.update_type == "delete" then
    .ok (if (s.entities.map Prod.fst).contains u.entity_id then
      killEntity u.entity_id s
    else s)
  else
    .ok s

/-- The for-loop of load_updates over deepcopy(self.updates_to_load): apply
entries in order; an uncaught exception propagates out of the loop, leaving
the state reached so far and skipping the remaining entries. -/
def loadBatch : ServerState → List NetUpdate → ServerState × Option String
  | s, [] => (s, none)
  | s, u :: rest =>
    match applyUpdate s u with
    | .ok s1 => loadBatch s1 rest
    | .error e => (s, some e)

/-- C6 counterexample: a batch whose first entry is a create naming the
unknown type "ghost" raises KeyError out of the batch-application loop; the
following update entry for the live entity e1 is never applied and nothing is
dropped-and-continued. -/
theorem load_updates_unknown_type_counterexample :
    loadBatch
      (⟨[], [("e1", (⟨"e1", "c1", "Floor",
          [("hp", Attr.plain (Value.vInt 10))],
          [("hp", Value.vInt 10)]⟩ : EntityState))],
        [("floor", "Floor")], [], [], "server"⟩ : ServerState)
      [mkNetUpdate "create" "g1" (some "ghost") (some []),
       mkNetUpdate "update" "e1" none (some [("hp", Value.vInt 5)])] =
    ((⟨[], [("e1", (⟨"e1", "c1", "Floor",
          [("hp", Attr.plain (Value.vInt 10))],
          [("hp", Value.vInt 10)]⟩ : EntityState))],
        [("floor", "Floor")], [], [], "server"⟩ : ServerState),
      some "KeyError") := by
  rfl

/-- C6 amended: a create entry whose entity_type is absent from the entity
type map makes load_updates raise KeyError out of the batch-application loop;
the entry is not dropped with a logged warning, and the remaining entries of
the batch are not applied. -/
theorem load_updates_unknown_type_raises (s : ServerState) (u : NetUpdate)
    (rest : List NetUpdate) (h1 : u.update_type = "create")
    (h2 : (match u.entity_type with
           | none => true
           | some t => (dictGet s.entity_type_map t).isNone) = true) :
    loadBatch s (u :: rest) = (s, some "KeyError") := by
  have happ : applyUpdate s u = .error "KeyError" := by
    cases hets : u.entity_type with
    | none => simp [applyUpdate, h1, hets]
    | some t =>
      rw [hets] at h2
      have h2b : (dictGet s.entity_type_map t).isNone = true := h2
      cases hget : dictGet s.entity_type_map t with
      | none => simp [applyUpdate, h1, hets, hget]
      | some ety => rw [hget] at h2b; simp at h2b
  simp [loadBatch, happ]

/-- Witness for load_updates_unknown_type_raises at a concrete state. -/
theorem load_updates_unknown_type_raises_witness :
    loadBatch (⟨[], [], [("floor", "Floor")], [], [], "server"⟩ : ServerState)
      [mkNetUpdate "create" "g1" (some "ghost") (some []),
       mkNetUpdate "delete" "g1" none none] =
    ((⟨[], [], [("floor", "Floor")], [], [], "server"⟩ : ServerState),
      some "KeyError") := by
  exact load_updates_unknown_type_raises
    (⟨[], [], [("floor", "Floor")], [], [], "server"⟩ : ServerState)
    (mkNetUpdate "create" "g1" (some "ghost") (some []))
    [mkNetUpdate "delete" "g1" none none] (by decide) (by decide)

/-- The event types GamemodeServer.__init__ wires (or could wire) handlers
to. -/
inductive ServerEventType where
  | receivedClientUpdates
  | serverStart
  | updatesLoaded
  | newClient
  | tickEvent
  | tickStart
  | tickComplete
  | networkTick
  | disconnectedClient
deriving DecidableEq, Repr

/-- The bound methods of GamemodeServer that appear in its subscription
table or are defined as handlers. -/
inductive ServerHandler where
  | load_updates
  | load_resources
  | send_client_updates
  | enable_socket
  | handle_new_client
  | increment_tick_counter
  | accept_new_clients
  | receive_client_updates
  | measure_dt
  | handle_client_disconnect
deriving DecidableEq, Repr

/-- The subscription table built by GamemodeServer.__init__
(src/src/onepointsix/gamemode_server.py, lines 55-83). event_subscriptions is
a defaultdict(list), so event types never subscribed there map to the empty
list; in particular no handler is ever subscribed to DisconnectedClient. -/
def event_subscriptions : ServerEventType → List ServerHandler
  | ServerEventType.receivedClientUpdates => [ServerHandler.load_updates]
  | ServerEventType.serverStart =>
    [ServerHandler.load_resources, ServerHandler.enable_socket]
  | ServerEventType.updatesLoaded => [ServerHandler.send_client_updates]
  | ServerEventType.newClient => [ServerHandler.handle_new_client]
  | ServerEventType.tickEvent =>
    [ServerHandler.increment_tick_counter, ServerHandler.accept_new_clients,
     ServerHandler.receive_client_updates]
  | ServerEventType.tickStart => [ServerHandler.measure_dt]
  | ServerEventType.tickComplete => []
  | ServerEventType.networkTick => []
  | ServerEventType.disconnectedClient => []

/-- The entity-removal loop of GamemodeServer.handle_client_disconnect
(src/src/onepointsix/gamemode_server.py, lines 268-277): walk a copy of the
registry; every entity whose updater is the disconnected peer is deleted and
a delete update is queued to list(self.client_sockets.keys()) - which at this
point still contains the disconnecting peer, whose socket is removed only
afterwards. The network_update call always passes its guards for a delete. -/
def disconnectPurge (u : String) (socks : List String) :
    List (String × EntityState) → List (String × List NetUpdate) →
    List (String × EntityState) × List (String × List NetUpdate)
  | [], q => ([], q)
  | (eid, e) :: rest, q =>
    if e.updater == u then
      disconnectPurge u socks rest
        (enqueueAll socks (mkNetUpdate "delete" eid none none) q)
    else
      let (es, q1) := disconnectPurge u socks rest q
      ((eid, e) :: es, q1)

/-- GamemodeServer.handle_client_disconnect (src/src/onepointsix/
gamemode_server.py, lines 264-283): purge the peer's entities, broadcast
their deletion, then drop the peer's socket and its update queue. -/
def handle_client_disconnect (u : String) (s : ServerState) : ServerState :=
  let (es, q) := disconnectPurge u s.client_sockets s.entities s.update_queue
  { s with
    entities := es
    client_sockets := s.client_sockets.filter (fun c => !(c == u))
    update_queue := dictDelete q u }

/-- Dispatch of one handler on a DisconnectedClient event; only
handle_client_disconnect accepts that event type, every other handler is
never in the DisconnectedClient subscription list. -/
def applyDisconnectHandlers : List ServerHandler → String → ServerState →
    ServerState
  | [], _, s => s
  | h :: hs, u, s =>
    applyDisconnectHandlers hs u
      (if h == ServerHandler.handle_client_disconnect then
        handle_client_disconnect u s
      else s)

/-- self.trigger(DisconnectedClient(uuid)): run the subscription list for
DisconnectedClient (all listed handlers are GamemodeServer-bound, so the
updater filter of trigger passes them). -/
def triggerDisconnectedClient (u : String) (s : ServerState) : ServerState :=
  applyDisconnectHandlers
    (event_subscriptions ServerEventType.disconnectedClient) u s

/-- The outcome of one non-blocking recv_headered call on a client socket. -/
inductive RecvResult where
  | disconnected
  | wouldBlock
  | batch (us : List NetUpdate)

/-- The relay loop of receive_client_updates (lines 321-328): append the
incoming batch to every connected client's queue except the sender's own. -/
def relayToOthers (sender : String) (us : List NetUpdate) :
    List String → List (String × List NetUpdate) →
    List (String × List NetUpdate)
  | [], q => q
  | r :: rs, q =>
    relayToOthers sender us rs (if r == sender then q else queueAppend q r us)

/-- The outer loop of GamemodeServer.receive_client_updates
(src/src/onepointsix/gamemode_server.py, lines 297-328) over the snapshot
self.client_sockets.copy(): a Disconnected read triggers the
DisconnectedClient event and continues, BlockingIOError continues, and a
decoded batch is appended to updates_to_load and relayed to every other
client. The trailing trigger(ReceivedClientUpdates()) that hands
updates_to_load to load_updates is modelled separately by loadBatch. -/
def receiveClientsLoop (recv : String → RecvResult) :
    List String → ServerState → ServerState
  | [], s => s
  | c :: rest, s =>
    match recv c with
    | RecvResult.disconnected =>
      receiveClientsLoop recv rest (triggerDisconnectedClient c s)
    | RecvResult.wouldBlock => receiveClientsLoop recv rest s
    | RecvResult.batch us =>
      let s1 := { s with updates_to_load := s.updates_to_load ++ us }
      let s2 := { s1 with
        update_queue := relayToOthers c us s1.client_sockets s1.update_queue }
      receiveClientsLoop recv rest s2

def receive_client_updates (recv : String → RecvResult) (s : ServerState) :
    ServerState :=
  receiveClientsLoop recv s.client_sockets s

theorem triggerDisconnectedClient_id (u : String) (s : ServerState) :
    triggerDisconnectedClient u s = s := rfl

/-- C4 (code bug): a Disconnected read only dispatches DisconnectedClient,
whose subscription list is empty (handle_client_disconnect is never
subscribed in __init__), so the server state is completely unchanged: the
peer's entities stay registered, no deletes are broadcast, and the socket and
queue are kept. The third conjunct shows the dead handler would have
performed exactly the claimed teardown had it been subscribed. -/
theorem client_disconnect_not_handled :
    event_subscriptions ServerEventType.disconnectedClient = [] ∧
    receive_client_updates (fun _ => RecvResult.disconnected)
        (⟨["c1"],
          [("e1", (⟨"e1", "c1", "Floor", [], [("hp", Value.vInt 10)]⟩ : EntityState))],
          [("floor", "Floor")], [], [("c1", [])], "server"⟩ : ServerState) =
      (⟨["c1"],
        [("e1", (⟨"e1", "c1", "Floor", [], [("hp", Value.vInt 10)]⟩ : EntityState))],
        [("floor", "Floor")], [], [("c1", [])], "server"⟩ : ServerState) ∧
    handle_client_disconnect "c1"
        (⟨["c1"],
          [("e1", (⟨"e1", "c1", "Floor", [], [("hp", Value.vInt 10)]⟩ : EntityState))],
          [("floor", "Floor")], [], [("c1", [])], "server"⟩ : ServerState) =
      (⟨[], [], [("floor", "Floor")], [], [], "server"⟩ : ServerState) := by
  refine ⟨rfl, rfl, rfl⟩

theorem dictGetD_relayToOthers (sender : String) (us : List NetUpdate)
    (socks : List String) (hnd : socks.Nodup)
    (q : List (String × List NetUpdate)) (r : String) :
    dictGetD (relayToOthers sender us socks q) r [] =
      dictGetD q r [] ++ (if r ∈ socks ∧ r ≠ sender then us else []) := by
  induction socks generalizing q with
  | nil => simp [relayToOthers]
  | cons c cs ih =>
    simp only [List.nodup_cons] at hnd
    rw [relayToOthers, ih hnd.2]
    by_cases hcs : c = sender
    · subst hcs
      simp only [beq_self_eq_true, if_true]
      have hiff : (r ∈ c :: cs ∧ r ≠ c) ↔ (r ∈ cs ∧ r ≠ c) := by
        constructor
        · rintro ⟨hm, hne⟩
          rcases List.mem_cons.mp hm with h1 | h1
          · exact absurd h1 hne
          · exact ⟨h1, hne⟩
        · rintro ⟨hm, hne⟩
          exact ⟨List.mem_cons_of_mem _ hm, hne⟩
      rw [if_congr hiff rfl rfl]
    · have hcb : (c == sender) = false := by simpa using hcs
      rw [hcb]
      simp only [Bool.false_eq_true, if_false]
      by_cases hrc : r = c
      · subst hrc
        have hnot : r ∉ cs := hnd.1
        rw [dictGetD_queueAppend_self]
        have h1 : (r ∈ cs ∧ r ≠ sender) ↔ False := by simp [hnot]
        have h2 : (r ∈ r :: cs ∧ r ≠ sender) ↔ True := by simp [hcs]
        rw [if_congr h1 rfl rfl, if_congr h2 rfl rfl]
        simp
      · rw [dictGetD_queueAppend_ne _ _ _ _ hrc]
        have hiff : (r ∈ c :: cs ∧ r ≠ sender) ↔ (r ∈ cs ∧ r ≠ sender) := by
          constructor
          · rintro ⟨hm, hne⟩
            rcases List.mem_cons.mp hm with h1 | h1
            · exact absurd h1 hrc
            · exact ⟨h1, hne⟩
          · rintro ⟨hm, hne⟩
            exact ⟨List.mem_cons_of_mem _ hm, hne⟩
        rw [if_congr hiff rfl rfl]

/-- The batches successfully read during one receive pass, with their
senders, in sender order. -/
def recvBatches (recv : String → RecvResult) (senders : List String) :
    List (String × List NetUpdate) :=
  senders.filterMap (fun c =>
    match recv c with
    | RecvResult.batch us => some (c, us)
    | _ => none)

theorem receiveClientsLoop_spec (recv : String → RecvResult)
    (socks : List String) (hnd : socks.Nodup) :
    ∀ (senders : List String) (s : ServerState), s.client_sockets = socks →
      (receiveClientsLoop recv senders s).client_sockets = socks ∧
      (receiveClientsLoop recv senders s).entities = s.entities ∧
      (receiveClientsLoop recv senders s).updates_to_load =
        s.updates_to_load ++ ((recvBatches recv senders).map Prod.snd).flatten ∧
      (∀ r, dictGetD (receiveClientsLoop recv senders s).update_queue r [] =
        dictGetD s.update_queue r [] ++
          (((recvBatches recv senders).filter
              (fun b => !(b.1 == r) && socks.contains r)).map Prod.snd).flatten) := by
  intro senders
  induction senders with
  | nil =>
    intro s hs
    refine ⟨hs, rfl, by simp [receiveClientsLoop, recvBatches], ?_⟩
    intro r
    simp [receiveClientsLoop, recvBatches]
  | cons c cs ih =>
    intro s hs
    match hr : recv c with
    | RecvResult.disconnected =>
      have hb : recvBatches recv (c :: cs) = recvBatches recv cs := by
        simp [recvBatches, List.filterMap_cons, hr]
      rw [receiveClientsLoop, hr, triggerDisconnectedClient_id, hb]
      exact ih s hs
    | RecvResult.wouldBlock =>
      have hb : recvBatches recv (c :: cs) = recvBatches recv cs := by
        simp [recvBatches, List.filterMap_cons, hr]
      rw [receiveClientsLoop, hr, hb]
      exact ih s hs
    | RecvResult.batch us =>
      have hb : recvBatches recv (c :: cs) = (c, us) :: recvBatches recv cs := by
        simp [recvBatches, List.filterMap_cons, hr]
      rw [receiveClientsLoop, hr, hb]
      set s2 : ServerState :=
        { s with
          updates_to_load := s.updates_to_load ++ us
          update_queue := relayToOthers c us s.client_sockets s.update_queue }
        with hs2
      have hs2c : s2.client_sockets = socks := hs
      obtain ⟨g1, g2, g3, g4⟩ := ih s2 hs2c
      refine ⟨g1, g2, ?_, ?_⟩
      · rw [g3, hs2]
        simp [List.append_assoc]
      · intro r
        rw [g4 r, hs2]
        simp only [List.filter_cons]
        have hndc : s.client_sockets.Nodup := by rw [hs]; exact hnd
        have hq := dictGetD_relayToOthers c us s.client_sockets hndc
          s.update_queue r
        rw [hq, hs]
        by_cases hkeep : (!(c == r) && socks.contains r) = true
        · have hcond : r ∈ socks ∧ r ≠ c := by
            rw [Bool.and_eq_true] at hkeep
            refine ⟨by simpa using hkeep.2, ?_⟩
            intro he
            rw [he] at hkeep
            simp at hkeep
          have hcond2 : r ∈ socks ∧ r ≠ c := hcond
          rw [if_pos hkeep, if_pos hcond2]
          simp [List.append_assoc]
        · have hcond : ¬(r ∈ socks ∧ r ≠ c) := by
            intro hcon
            apply hkeep
            rw [Bool.and_eq_true]
            refine ⟨by simpa using (Ne.symm hcon.2), by simpa using hcon.1⟩
          rw [if_neg hkeep, if_neg hcond]
          simp

/-- C8: every inbound batch decoded from one client is appended to
updates_to_load for registry processing and appended verbatim to the update
queue of every other connected client, never to the sender's own queue. -/
theorem receive_relays_batches (recv : String → RecvResult) (s : ServerState)
    (hnd : s.client_sockets.Nodup) :
    (receive_client_updates recv s).updates_to_load =
      s.updates_to_load ++
        ((recvBatches recv s.client_sockets).map Prod.snd).flatten ∧
    (∀ r, dictGetD (receive_client_updates recv s).update_queue r [] =
      dictGetD s.update_queue r [] ++
        (((recvBatches recv s.client_sockets).filter
            (fun b => !(b.1 == r) && s.client_sockets.contains r)).map
          Prod.snd).flatten) ∧
    (receive_client_updates recv s).entities = s.entities ∧
    (receive_client_updates recv s).client_sockets = s.client_sockets := by
  obtain ⟨g1, g2, g3, g4⟩ :=
    receiveClientsLoop_spec recv s.client_sockets hnd s.client_sockets s rfl
  exact ⟨g3, g4, g2, g1⟩

/-- Witness for receive_relays_batches: three clients, two of which send a
batch; the would-block client receives both relays, each sender receives only
the other sender's batch, and both batches land in updates_to_load. -/
theorem receive_relays_batches_witness :
    (receive_client_updates
        (fun c =>
          if c == "c1" then RecvResult.batch [mkNetUpdate "update" "e1" none none]
          else if c == "c3" then RecvResult.batch [mkNetUpdate "delete" "e2" none none]
          else RecvResult.wouldBlock)
        (⟨["c1", "c2", "c3"], [], [], [], [], "server"⟩ : ServerState)).updates_to_load =
      [mkNetUpdate "update" "e1" none none, mkNetUpdate "delete" "e2" none none] ∧
    dictGetD (receive_client_updates
        (fun c =>
          if c == "c1" then RecvResult.batch [mkNetUpdate "update" "e1" none none]
          else if c == "c3" then RecvResult.batch [mkNetUpdate "delete" "e2" none none]
          else RecvResult.wouldBlock)
        (⟨["c1", "c2", "c3"], [], [], [], [], "server"⟩ : ServerState)).update_queue
      "c2" [] =
      [mkNetUpdate "update" "e1" none none, mkNetUpdate "delete" "e2" none none] ∧
    dictGetD (receive_client_updates
        (fun c =>
          if c == "c1" then RecvResult.batch [mkNetUpdate "update" "e1" none none]
          else if c == "c3" then RecvResult.batch [mkNetUpdate "delete" "e2" none none]
          else RecvResult.wouldBlock)
        (⟨["c1", "c2", "c3"], [], [], [], [], "server"⟩ : ServerState)).update_queue
      "c1" [] =
      [mkNetUpdate "delete" "e2" none none] := by
  obtain ⟨g1, g2, _g3, _g4⟩ := receive_relays_batches
    (fun c =>
      if c == "c1" then RecvResult.batch [mkNetUpdate "update" "e1" none none]
      else if c == "c3" then RecvResult.batch [mkNetUpdate "delete" "e2" none none]
      else RecvResult.wouldBlock)
    (⟨["c1", "c2", "c3"], [], [], [], [], "server"⟩ : ServerState) (by decide)
  refine ⟨?_, ?_, ?_⟩
  · rw [g1]
    rfl
  · rw [g2 "c2"]
    rfl
  · rw [g2 "c1"]
    rfl

theorem dictInsert_dictInsert (m : List (String × α)) (k : String) (a b : α) :
    dictInsert (dictInsert m k a) k b = dictInsert m k b := by
  induction m with
  | nil => simp [dictInsert]
  | cons kv rest ih =>
    by_cases hk : kv.1 = k
    · simp [dictInsert, hk]
    · simp [dictInsert, hk, ih]

theorem mem_dictInsert_self (m : List (String × α)) (k : String) (v : α) :
    (k, v) ∈ dictInsert m k v := by
  induction m with
  | nil => simp [dictInsert]
  | cons kv rest ih =>
    by_cases hk : kv.1 = k
    · simp [dictInsert, hk]
    · simp only [dictInsert, beq_iff_eq, hk, if_false]
      exact List.mem_cons_of_mem _ ih

theorem queueAppend_queueAppend (q : List (String × List NetUpdate))
    (k : String) (us vs : List NetUpdate) :
    queueAppend (queueAppend q k us) k vs = queueAppend q k (us ++ vs) := by
  simp only [queueAppend, dictGetD, dictGet_dictInsert_self, Option.getD_some,
    dictInsert_dictInsert, List.append_assoc]

/-- GamemodeServer.lookup_entity_type_string (src/src/onepointsix/
gamemode_server.py, lines 206-219) minus the raise: walk entity_type_map and
keep the last type string whose mapped type is the entity's runtime type. -/
def lookupTypeString : List (String × String) → String → Option String
  | [], _ => none
  | kv :: rest, ety =>
    match lookupTypeString rest ety with
    | some t => some t
    | none => if kv.2 == ety then some kv.1 else none

/-- The full lookup_entity_type_string contract: raise KeyError when the
entity's type appears nowhere in the map. -/
def lookup_entity_type_string (e : EntityState) (m : List (String × String)) :
    Except String String :=
  match lookupTypeString m e.etype with
  | some t => .ok t
  | none => .error "KeyError"

theorem lookupTypeString_contains (m : List (String × String)) (ety t : String)
    (h : lookupTypeString m ety = some t) :
    (m.map Prod.fst).contains t = true := by
  induction m with
  | nil => simp [lookupTypeString] at h
  | cons kv rest ih =>
    rw [lookupTypeString] at h
    cases hrest : lookupTypeString rest ety with
    | some t2 =>
      rw [hrest] at h
      have ht : t2 = t := by simpa using h
      subst ht
      have hc := ih hrest
      simp only [List.map_cons, List.contains_cons, hc, Bool.or_true]
    | none =>
      rw [hrest] at h
      by_cases hv : kv.2 = ety
      · simp only [hv, beq_self_eq_true, if_true, Option.some.injEq] at h
        simp [h]
      · simp [hv] at h

/-- The per-entity loop of GamemodeServer.handle_new_client (lines 251-257):
look up each live entity's type string, serialize it, and queue a create
update addressed only to the new peer. -/
def queueEntityCreates (cuuid : String) :
    List (String × EntityState) → ServerState → Except String ServerState
  | [], s => .ok s
  | (_, e) :: rest, s =>
    match lookup_entity_type_string e s.entity_type_map with
    | .error msg => .error msg
    | .ok ets =>
      match network_update "create" e.id (some [cuuid]) (some e.serial)
          (some ets) s with
      | .error msg => .error msg
      | .ok s1 => queueEntityCreates cuuid rest s1

/-- The flush loop of GamemodeServer.send_client_updates (lines 332-352):
iterate the queues; skip empty ones; an entry for a uuid without a connected
socket raises KeyError (self.client_sockets[receiving_client_uuid]);
otherwise the batch is framed and sent and the queue entry is cleared.
Returns the (receiver, batch) transmissions in order and the queue state
after the loop. -/
def flushQueues (socks : List String) :
    List (String × List NetUpdate) →
    Except String (List (String × List NetUpdate) × List (String × List NetUpdate))
  | [] => .ok ([], [])
  | (r, ups) :: rest =>
    if ups.isEmpty then
      match flushQueues socks rest with
      | .error msg => .error msg
      | .ok (sent, q) => .ok (sent, (r, ups) :: q)
    else if socks.contains r then
      match flushQueues socks rest with
      | .error msg => .error msg
      | .ok (sent, q) => .ok ((r, ups) :: sent, (r, []) :: q)
    else .error "KeyError"

def send_client_updates (s : ServerState) :
    Except String (List (String × List NetUpdate) × ServerState) :=
  match flushQueues s.client_sockets s.update_queue with
  | .error msg => .error msg
  | .ok (sent, q) => .ok (sent, { s with update_queue := q })

/-- Python dict key insertion for client_sockets[client_uuid] = socket:
an existing key keeps its position, a new one is appended. -/
def listInsertKey (l : List String) (k : String) : List String :=
  if l.contains k then l else l ++ [k]

/-- GamemodeServer.handle_new_client (src/src/onepointsix/gamemode_server.py,
lines 222-259): read the peer's uuid, store its socket, then either send a
single empty batch (empty registry) or queue a synthetic create per live
entity addressed to the new peer only and flush with send_client_updates.
Returns the framed transmissions and the resulting state; the empty-registry
batch is written directly to the socket, bypassing the queues. -/
def handle_new_client (cuuid : String) (s : ServerState) :
    Except String (List (String × List NetUpdate) × ServerState) :=
  let s1 := { s with client_sockets := listInsertKey s.client_sockets cuuid }
  if s1.entities.isEmpty then
    .ok ([(cuuid, [])], s1)
  else
    match queueEntityCreates cuuid s1.entities s1 with
    | .error msg => .error msg
    | .ok s2 => send_client_updates s2

theorem queueEntityCreates_ok (cuuid : String) :
    ∀ (ents : List (String × EntityState)) (s : ServerState),
      ents.all (fun kv =>
        (lookupTypeString s.entity_type_map kv.2.etype).isSome) = true →
      ents ≠ [] →
      queueEntityCreates cuuid ents s = .ok { s with update_queue :=
        (queueAppend s.update_queue cuuid (ents.map (fun kv =>
          mkNetUpdate "create" kv.2.id
            (lookupTypeString s.entity_type_map kv.2.etype)
            (some kv.2.serial)))) } := by
  intro ents
  induction ents with
  | nil =>
    intro s _ hne
    exact absurd rfl hne
  | cons kv rest ih =>
    intro s hall _
    rw [List.all_cons, Bool.and_eq_true] at hall
    obtain ⟨n, e⟩ := kv
    cases hls : lookupTypeString s.entity_type_map e.etype with
    | none =>
      have hh := hall.1
      simp only [hls] at hh
      simp at hh
    | some t =>
      have hlook : lookup_entity_type_string e s.entity_type_map = .ok t := by
        rw [lookup_entity_type_string, hls]
      have hcont := lookupTypeString_contains s.entity_type_map e.etype t hls
      have hcheck : updateChecksPass "create" (some t) s.entity_type_map = true := by
        have hred : updateChecksPass "create" (some t) s.entity_type_map =
            (s.entity_type_map.map Prod.fst).contains t := rfl
        rw [hred, hcont]
      have hnet := network_update_ok "create" e.id (some [cuuid]) (some e.serial)
        (some t) s hcheck
      rw [queueEntityCreates]
      simp only [hlook, hnet]
      by_cases hrest : rest = []
      · subst hrest
        rw [queueEntityCreates]
        simp [hls]
        rfl
      · have hall2 : rest.all (fun kv =>
            (lookupTypeString s.entity_type_map kv.2.etype).isSome) = true := hall.2
        have hstep := ih ({ s with update_queue := (enqueueAll
            ((some [cuuid]).getD s.client_sockets)
            (mkNetUpdate "create" e.id (some t) (some e.serial))
            s.update_queue) }) hall2 hrest
        rw [hstep]
        simp only [List.map_cons, hls]
        have hfuse := queueAppend_queueAppend s.update_queue cuuid
          [mkNetUpdate "create" e.id (some t) (some e.serial)]
          (rest.map (fun kv =>
            mkNetUpdate "create" kv.2.id
              (lookupTypeString s.entity_type_map kv.2.etype)
              (some kv.2.serial)))
        simp only [List.singleton_append] at hfuse
        rw [← hfuse]
        rfl

theorem flushQueues_ok (socks : List String) :
    ∀ q : List (String × List NetUpdate),
      q.all (fun kv => kv.2.isEmpty || socks.contains kv.1) = true →
      flushQueues socks q =
        .ok (q.filter (fun kv => !kv.2.isEmpty),
             q.map (fun kv => (kv.1, ([] : List NetUpdate)))) := by
  intro q
  induction q with
  | nil => intro _; rfl
  | cons kv rest ih =>
    intro h
    rw [List.all_cons, Bool.and_eq_true] at h
    obtain ⟨r, ups⟩ := kv
    by_cases hemp : ups.isEmpty = true
    · have hups : ups = [] := by
        cases ups with
        | nil => rfl
        | cons a l => simp at hemp
      subst hups
      rw [flushQueues]
      simp [ih h.2, List.filter_cons]
    · have hcont : socks.contains r = true := by
        rcases Bool.or_eq_true_iff.mp h.1 with h1 | h1
        · exact absurd h1 hemp
        · exact h1
      have hrm : r ∈ socks := by simpa using hcont
      rw [flushQueues]
      simp [hemp, hcont, hrm, ih h.2, List.filter_cons]

theorem dictGetD_map_clear (q : List (String × List NetUpdate)) (k : String) :
    dictGetD (q.map (fun kv => (kv.1, ([] : List NetUpdate)))) k [] = [] := by
  induction q with
  | nil => rfl
  | cons kv rest ih =>
    by_cases hk : kv.1 = k
    · simp [dictGetD, dictGet, hk]
    · simp only [List.map_cons, dictGetD, dictGet, beq_iff_eq, hk, if_false]
      exact ih

theorem listInsertKey_contains (l : List String) (k : String) :
    (listInsertKey l k).contains k = true := by
  by_cases h : k ∈ l
  · simp [listInsertKey, h]
  · simp [listInsertKey, h]

/-- C7: on a brand-new connection, an empty registry makes the server send a
single empty update batch to the new peer; otherwise exactly one synthetic
create update per live entity, carrying the entity's full serialized data, is
queued only to the new peer and flushed at once, so the batch the new peer
receives is exactly those creates (no update or delete messages) while every
other peer's transmission is just its previously queued content, and the new
peer's queue is empty afterwards (its per-tick diffs can only come later). -/
theorem handle_new_client_correct (cuuid : String) (s : ServerState)
    (hty : s.entities.all (fun kv =>
      (lookupTypeString s.entity_type_map kv.2.etype).isSome) = true)
    (hq0 : dictGetD s.update_queue cuuid [] = [])
    (hndq : (s.update_queue.map Prod.fst).Nodup)
    (hflush : s.update_queue.all (fun kv =>
      kv.2.isEmpty || (listInsertKey s.client_sockets cuuid).contains kv.1) = true) :
    (s.entities = [] →
      handle_new_client cuuid s =
        .ok ([(cuuid, [])],
          { s with client_sockets := listInsertKey s.client_sockets cuuid })) ∧
    (s.entities ≠ [] →
      ∃ sent s2, handle_new_client cuuid s = .ok (sent, s2) ∧
        (cuuid, s.entities.map (fun kv =>
          mkNetUpdate "create" kv.2.id
            (lookupTypeString s.entity_type_map kv.2.etype)
            (some kv.2.serial))) ∈ sent ∧
        (∀ p ups, (p, ups) ∈ sent → p = cuuid →
          ups = s.entities.map (fun kv =>
            mkNetUpdate "create" kv.2.id
              (lookupTypeString s.entity_type_map kv.2.etype)
              (some kv.2.serial))) ∧
        (∀ p ups, (p, ups) ∈ sent → p ≠ cuuid →
          ups = dictGetD s.update_queue p [] ∧ ups ≠ []) ∧
        (∀ u ∈ s.entities.map (fun kv =>
            mkNetUpdate "create" kv.2.id
              (lookupTypeString s.entity_type_map kv.2.etype)
              (some kv.2.serial)), u.update_type = "create") ∧
        (s.entities.map (fun kv =>
          mkNetUpdate "create" kv.2.id
            (lookupTypeString s.entity_type_map kv.2.etype)
            (some kv.2.serial))).length = s.entities.length ∧
        dictGetD s2.update_queue cuuid [] = []) := by
  constructor
  · intro hemp
    simp [handle_new_client, hemp]
  · intro hne
    have hiso : s.entities.isEmpty = false := by
      cases hs : s.entities with
      | nil => exact absurd hs hne
      | cons a l => rfl
    have hQ := queueEntityCreates_ok cuuid s.entities
      ({ s with client_sockets := listInsertKey s.client_sockets cuuid }) hty hne
    have hcreates_ne : s.entities.map (fun kv =>
        mkNetUpdate "create" kv.2.id
          (lookupTypeString s.entity_type_map kv.2.etype)
          (some kv.2.serial)) ≠ [] := by
      intro hmapnil
      exact hne (List.map_eq_nil_iff.mp hmapnil)
    have hall2 : (queueAppend s.update_queue cuuid (s.entities.map (fun kv =>
        mkNetUpdate "create" kv.2.id
          (lookupTypeString s.entity_type_map kv.2.etype)
          (some kv.2.serial)))).all (fun kv =>
        kv.2.isEmpty || (listInsertKey s.client_sockets cuuid).contains kv.1) = true := by
      rw [List.all_eq_true]
      intro kv hmem
      rcases mem_dictInsert s.update_queue cuuid
          (dictGetD s.update_queue cuuid [] ++ s.entities.map (fun kv =>
            mkNetUpdate "create" kv.2.id
              (lookupTypeString s.entity_type_map kv.2.etype)
              (some kv.2.serial))) kv hmem with hin | hin
      · exact List.all_eq_true.mp hflush kv hin
      · rw [hin]
        have hc := listInsertKey_contains s.client_sockets cuuid
        simp only [Bool.or_eq_true]
        right
        exact hc
    have hF := flushQueues_ok (listInsertKey s.client_sockets cuuid) _ hall2
    have hndq2 : ((queueAppend s.update_queue cuuid (s.entities.map (fun kv =>
        mkNetUpdate "create" kv.2.id
          (lookupTypeString s.entity_type_map kv.2.etype)
          (some kv.2.serial)))).map Prod.fst).Nodup :=
      dictInsert_keys_nodup s.update_queue cuuid _ hndq
    refine ⟨(queueAppend s.update_queue cuuid (s.entities.map (fun kv =>
        mkNetUpdate "create" kv.2.id
          (lookupTypeString s.entity_type_map kv.2.etype)
          (some kv.2.serial)))).filter (fun kv => !kv.2.isEmpty),
      { s with
        client_sockets := listInsertKey s.client_sockets cuuid
        update_queue := ((queueAppend s.update_queue cuuid (s.entities.map (fun kv =>
          mkNetUpdate "create" kv.2.id
            (lookupTypeString s.entity_type_map kv.2.etype)
            (some kv.2.serial)))).map (fun kv => (kv.1, ([] : List NetUpdate)))) },
      ?_, ?_, ?_, ?_, ?_, ?_, ?_⟩
    · simp only [handle_new_client, hiso, Bool.false_eq_true, if_false, hQ,
        send_client_updates, hF]
    · apply List.mem_filter.mpr
      constructor
      · have hself : (cuuid, dictGetD s.update_queue cuuid [] ++
            s.entities.map (fun kv =>
              mkNetUpdate "create" kv.2.id
                (lookupTypeString s.entity_type_map kv.2.etype)
                (some kv.2.serial))) ∈
            queueAppend s.update_queue cuuid (s.entities.map (fun kv =>
              mkNetUpdate "create" kv.2.id
                (lookupTypeString s.entity_type_map kv.2.etype)
                (some kv.2.serial))) := mem_dictInsert_self _ _ _
        rw [hq0, List.nil_append] at hself
        exact hself
      · simp only [Bool.not_eq_eq_eq_not, Bool.not_false]
        cases hcs : s.entities.map (fun kv =>
            mkNetUpdate "create" kv.2.id
              (lookupTypeString s.entity_type_map kv.2.etype)
              (some kv.2.serial)) with
        | nil => exact absurd hcs hcreates_ne
        | cons a l => rfl
    · intro p ups hmem hp
      subst hp
      have hin := (List.mem_filter.mp hmem).1
      have hget : dictGet (queueAppend s.update_queue p (s.entities.map (fun kv =>
          mkNetUpdate "create" kv.2.id
            (lookupTypeString s.entity_type_map kv.2.etype)
            (some kv.2.serial)))) p = some (dictGetD s.update_queue p [] ++
          s.entities.map (fun kv =>
            mkNetUpdate "create" kv.2.id
              (lookupTypeString s.entity_type_map kv.2.etype)
              (some kv.2.serial))) := dictGet_dictInsert_self _ _ _
      rw [hq0, List.nil_append] at hget
      have hups := dictGet_eq_some_of_mem _ _ _ hndq2 hin
      rw [hups] at hget
      exact (Option.some.injEq _ _).mp hget
    · intro p ups hmem hp
      have hin := (List.mem_filter.mp hmem).1
      have hpred := (List.mem_filter.mp hmem).2
      rcases mem_dictInsert s.update_queue cuuid _ (p, ups) hin with h2 | h2
      · constructor
        · have := dictGet_eq_some_of_mem s.update_queue p ups hndq h2
          rw [dictGetD, this]
          rfl
        · intro hups
          rw [hups] at hpred
          simp at hpred
      · have : p = cuuid := congrArg Prod.fst h2
        exact absurd this hp
    · intro u hu
      rcases List.mem_map.mp hu with ⟨kv, _, hkv⟩
      rw [← hkv]
      rfl
    · exact List.length_map _ _
    · exact dictGetD_map_clear _ cuuid

/-- Witness for handle_new_client_correct: a late joiner receives exactly the
two synthetic creates for the two live entities, and its queue is empty
afterwards. -/
theorem handle_new_client_correct_witness :
    ∃ sent s2,
      handle_new_client "c9"
          (⟨["c0"],
            [("f1", (⟨"f1", "server", "Floor", [], [("w", Value.vInt 1920)]⟩ : EntityState)),
             ("p1", (⟨"p1", "c0", "Player", [], [("hp", Value.vInt 100)]⟩ : EntityState))],
            [("floor", "Floor"), ("player", "Player")], [], [("c0", [])],
            "server"⟩ : ServerState) =
        .ok (sent, s2) ∧
      ("c9", [mkNetUpdate "create" "f1" (some "floor") (some [("w", Value.vInt 1920)]),
              mkNetUpdate "create" "p1" (some "player")
                (some [("hp", Value.vInt 100)])]) ∈ sent ∧
      dictGetD s2.update_queue "c9" [] = [] := by
  obtain ⟨sent, s2, h1, h2, _h3, _h4, _h5, _h6, h7⟩ :=
    (handle_new_client_correct "c9"
        (⟨["c0"],
          [("f1", (⟨"f1", "server", "Floor", [], [("w", Value.vInt 1920)]⟩ : EntityState)),
           ("p1", (⟨"p1", "c0", "Player", [], [("hp", Value.vInt 100)]⟩ : EntityState))],
          [("floor", "Floor"), ("player", "Player")], [], [("c0", [])],
          "server"⟩ : ServerState)
        (by decide) (by decide) (by decide) (by decide)).2 (by decide)
  exact ⟨sent, s2, h1, h2, h7⟩
